import Mathlib

set_option autoImplicit false

/-
Verification of the durable e-mail notification queue implemented in
src/backend/emailQueue.js (class EmailQueue).

The JavaScript runs on Node's single-threaded event loop, so every stretch
of code between two suspension points (an `await`, a timer callback, a
fresh call from a route handler) executes atomically.  The embedding below
models the queue as a state machine whose steps are exactly those atomic
stretches:

  * `enqueue`            — lines 49-69 (push, saveQueue, trigger processQueue;
                           processQueue then runs synchronously up to its
                           first `await Promise.allSettled`, i.e. up to and
                           including splicing and dispatching the first batch);
  * `settleSuccess`      — lines 132-137 plus the `finally` at 172-174,
                           the synchronous continuation after `sendEmail`
                           resolves for one in-flight item;
  * `settleFailure`      — lines 138-171 plus the `finally`, the synchronous
                           continuation after `sendEmail` rejects;
  * `batchDone`          — resumption of processQueue after
                           `Promise.allSettled` (line 110): either suspend on
                           the 2-second inter-batch pause (line 114) or
                           re-check the loop condition and exit (lines 118-120);
  * `pauseDone`          — resumption after the inter-batch pause: re-check
                           the `while` condition at line 96 and either splice
                           the next batch or exit;
  * `periodicTick`       — the 30-second interval callback, lines 79-83;
  * `retryFire`          — the `setTimeout` callback registered at lines
                           159-168 (re-admission of a retried item);
  * `clearQueue`         — lines 243-246;
  * `tick`               — passage of wall-clock time;
  * `restart`            — process crash + constructor rerun (lines 6-23),
                           reloading the persisted file via loadQueue.

File-system effects are modelled explicitly: `persisted` is the content of
email-queue.json and `dead` is the set of records written to the
failed-emails directory.  `fs.writeFileSync` can throw; both saveQueue
(lines 40-46) and saveFailedEmail (lines 178-191) catch and merely log, so
each write is modelled with a boolean telling whether it succeeded.
-/

namespace EmailQueue

/-- The status strings stored in an email item by emailQueue.js:
`'pending'` (line 55 and 160), `'retrying'` (line 153) and `'failed'`
(line 148). -/
inductive Status
  | pending
  | retrying
  | failed
deriving DecidableEq, Repr

/-- The caller-supplied `emailData` object spread into the queue item at
line 52: a message category tag plus the opaque payload fields used by
`sendEmail` (lines 213-218). -/
structure EmailData where
  type : String
  «to» : String
  subject : String
  html : String
deriving DecidableEq, Repr

/-- One queue item as built at lines 50-56 and mutated at lines 141-160.
Timestamps are abstracted to naturals (milliseconds). -/
structure Job where
  id : Nat
  type : String
  «to» : String
  subject : String
  html : String
  attempts : Nat
  createdAt : Nat
  status : Status
  lastError : Option String
  lastAttempt : Option Nat
deriving DecidableEq, Repr

/-- `this.retryAttempts = 3` (line 9). -/
def retryAttempts : Nat := 3

/-- `this.retryDelay = 5000` (line 10). -/
def retryDelay : Nat := 5000

/-- `this.maxRetryDelay = 300000` (line 11). -/
def maxRetryDelay : Nat := 300000

/-- `this.maxConcurrentEmails = 3` (line 12). -/
def maxConcurrentEmails : Nat := 3

/-- Outcome of the retry decision taken in the catch block. -/
inductive RetryDecision
  | quarantine
  | retry (delay : Nat)
deriving DecidableEq, Repr

/-- The retry decision of lines 145-154, extracted as the pure function it
is: `if (emailItem.attempts >= this.retryAttempts)` the item is moved to
the failed set, otherwise it is retried after
`Math.min(this.retryDelay * Math.pow(2, emailItem.attempts - 1), this.maxRetryDelay)`
milliseconds.  The code consults it only after the increment at line 141,
so the argument is always at least 1. -/
def nextDecision (attempts : Nat) : RetryDecision :=
  if attempts ≥ retryAttempts then RetryDecision.quarantine
  else RetryDecision.retry (min (retryDelay * 2 ^ (attempts - 1)) maxRetryDelay)

/-- Where the single processQueue coroutine is suspended.  `idle` is
`this.processing === false`; `awaitingBatch` is the suspension at
`await Promise.allSettled` (line 110); `pausing` is the suspension at the
2-second inter-batch pause (line 114). -/
inductive Phase
  | idle
  | awaitingBatch
  | pausing
deriving DecidableEq, Repr

/-- Full state of one EmailQueue process together with its two persisted
artefacts.

* `queue`     — `this.queue`;
* `persisted` — the parsed content of email-queue.json (what a restarted
  process would reload);
* `phase`     — suspension point of processQueue; `processing` below is the
  boolean flag derived from it;
* `inflight`  — the items currently inside processSingleEmail between the
  `activeProcesses.add` (line 130) and the `finally` delete (line 173),
  i.e. awaiting `sendEmail`;
* `waiting`   — the pending `setTimeout` retry callbacks of line 159, as
  pairs (absolute due time, item);
* `dead`      — the records written to the failed-emails directory by
  saveFailedEmail;
* `sentLog`   — history variable, not program state: records each item as
  it is when the success branch (line 135) runs, so that attempt counters
  of successfully delivered items stay observable;
* `now`       — current wall-clock time in milliseconds. -/
structure QState where
  queue : List Job
  persisted : List Job
  phase : Phase
  inflight : List Job
  waiting : List (Nat × Job)
  dead : List Job
  sentLog : List Job
  now : Nat
deriving DecidableEq, Repr

/-- `this.processing`: true exactly while the processQueue coroutine is
between line 92 and line 119, i.e. suspended at one of its two awaits. -/
def QState.processing (s : QState) : Bool := decide (s.phase ≠ Phase.idle)

/-- State of a fresh process whose persisted file is absent: the
constructor fields of lines 7-14 with an empty reload. -/
def init : QState :=
  { queue := []
  , persisted := []
  , phase := Phase.idle
  , inflight := []
  , waiting := []
  , dead := []
  , sentLog := []
  , now := 0 }

/-- The item literal of lines 50-56: payload spread plus `attempts: 0`,
`createdAt`, `status: 'pending'`. -/
def mkJob (newId : Nat) (d : EmailData) (t : Nat) : Job :=
  { id := newId
  , type := d.type
  , «to» := d.«to»
  , subject := d.subject
  , html := d.html
  , attempts := 0
  , createdAt := t
  , status := Status.pending
  , lastError := none
  , lastAttempt := none }

/-- saveQueue (lines 40-46): rewrite email-queue.json with the current
queue.  `fs.writeFileSync` may throw; the catch block only logs, so on
failure the state is unchanged and no error reaches the caller.
`persistOk` tells whether the write succeeded. -/
def saveQueue (persistOk : Bool) (s : QState) : QState :=
  if persistOk then { s with persisted := s.queue } else s

/-- One execution of the `while` header and loop body of lines 96-107 up to
the `await Promise.allSettled`: if `queue.length > 0` and
`activeProcesses.size < maxConcurrentEmails`, splice
`min(availableSlots, queue.length)` items off the front of the queue and
start processSingleEmail on each (which synchronously adds them to
`activeProcesses`), then suspend at the allSettled await; otherwise leave
the loop and reset `this.processing` (line 119). -/
def dispatch (s : QState) : QState :=
  if 0 < s.queue.length ∧ s.inflight.length < maxConcurrentEmails then
    let availableSlots := maxConcurrentEmails - s.inflight.length
    { s with queue := s.queue.drop availableSlots
           , inflight := s.inflight ++ s.queue.take availableSlots
           , phase := Phase.awaitingBatch }
  else
    { s with phase := Phase.idle }

/-- processQueue entry (lines 87-92): the re-entrance guard
`if (this.processing) return` followed, when idle, by the first loop pass. -/
def processQueue (s : QState) : QState :=
  if s.processing then s else dispatch s

/-- enqueue (lines 49-69): build the item, push it, saveQueue, then
`if (!this.processing) this.processQueue()`, and return the item id.
There is no failure path: a persistence failure is swallowed inside
saveQueue and the id is returned regardless.  `newId` stands for the
`generateId()` result (line 73). -/
def enqueue (persistOk : Bool) (newId : Nat) (d : EmailData) (s : QState) :
    Nat × QState :=
  let item := mkJob newId d s.now
  let s1 := saveQueue persistOk { s with queue := s.queue ++ [item] }
  (item.id, processQueue s1)

/-- Continuation of processSingleEmail when `sendEmail` resolves (lines
133-137 and the `finally`): log, saveQueue, remove the process id from
`activeProcesses`.  The item itself is not touched — in particular its
`attempts` counter is not incremented — and, having been spliced out of
the queue already, it simply becomes unreferenced; `sentLog` records it
for observation.  The caller supplies the decomposition
`inflight = l ++ j :: r` of the active set around the settled item. -/
def settleSuccess (persistOk : Bool) (l r : List Job) (s : QState) (j : Job) :
    QState :=
  saveQueue persistOk
    { s with inflight := l ++ r, sentLog := s.sentLog ++ [j] }

/-- Continuation of processSingleEmail when `sendEmail` rejects (lines
138-171 and the `finally`): increment `attempts`, record `lastError` and
`lastAttempt`, then either move the item to the failed-emails directory
(lines 145-149; the write may itself fail and is then only logged —
`deadOk`) or mark it `'retrying'` and register a `setTimeout` that will
re-admit it after the backoff delay (lines 151-168); in both branches
saveQueue runs afterwards (line 171) — note the item is in neither branch
part of `this.queue`, so the file written at line 171 does not contain
it. -/
def settleFailure (persistOk deadOk : Bool) (err : String) (l r : List Job)
    (s : QState) (j : Job) : QState :=
  let j1 := { j with attempts := j.attempts + 1
                   , lastError := some err
                   , lastAttempt := some s.now }
  match nextDecision j1.attempts with
  | RetryDecision.quarantine =>
      saveQueue persistOk
        { s with inflight := l ++ r
               , dead := if deadOk
                         then s.dead ++ [{ j1 with status := Status.failed }]
                         else s.dead }
  | RetryDecision.retry d =>
      saveQueue persistOk
        { s with inflight := l ++ r
               , waiting := s.waiting ++
                   [(s.now + d, { j1 with status := Status.retrying })] }

/-- The `setTimeout` callback of lines 159-168: set the item back to
`'pending'`, push it onto the queue, saveQueue, and
`if (!this.processing) this.processQueue()`.  The caller supplies the
decomposition `waiting = w1 ++ (due, j) :: w2`; the step relation below
additionally demands `due ≤ now`. -/
def retryFire (persistOk : Bool) (w1 w2 : List (Nat × Job)) (s : QState)
    (j : Job) : QState :=
  let s1 := saveQueue persistOk
    { s with waiting := w1 ++ w2
           , queue := s.queue ++ [{ j with status := Status.pending }] }
  processQueue s1

/-- Resumption of processQueue after `await Promise.allSettled` (line 110):
all members of the batch have settled (their `finally` blocks ran), so
`activeProcesses` is empty again; if the queue is non-empty suspend on the
2-second pause (lines 113-115), otherwise fall through to the loop
condition, which fails, and exit with `this.processing = false`. -/
def batchDone (s : QState) : QState :=
  if 0 < s.queue.length then { s with phase := Phase.pausing } else dispatch s

/-- Resumption of processQueue after the inter-batch pause: re-evaluate the
`while` condition of line 96 and either dispatch the next batch or exit. -/
def pauseDone (s : QState) : QState :=
  dispatch s

/-- The 30-second interval callback of lines 79-83:
`if (!this.processing && this.queue.length > 0) this.processQueue()`. -/
def periodicTick (s : QState) : QState :=
  if s.processing = false ∧ 0 < s.queue.length then processQueue s else s

/-- clearQueue (lines 243-246): `this.queue = []` then saveQueue.  Nothing
else is touched: in particular the pending retry timers in `waiting` and
the in-flight attempts keep running. -/
def clearQueue (persistOk : Bool) (s : QState) : QState :=
  saveQueue persistOk { s with queue := [] }

/-- loadQueue (lines 26-37) applied to the content of email-queue.json:
`none` models a missing file (`fs.existsSync` false — the queue field is
left as initialised), `some (Except.ok data)` a file that parses, and
`some (Except.error ())` a file whose read or `JSON.parse` throws, in
which case the catch block sets `this.queue = []`. -/
def loadQueue (file : Option (Except Unit (List Job))) (q : List Job) :
    List Job :=
  match file with
  | none => q
  | some (Except.ok data) => data
  | some (Except.error _) => []

/-- The constructor run of lines 6-23 on a machine whose email-queue.json
holds `activeFile` and whose failed-emails directory holds `deadFiles`.
Only loadQueue touches the disk: the failed-emails directory is never read
back (saveFailedEmail only ever writes), so `deadFiles` does not flow into
the process state and the in-memory dead set starts empty whatever the
directory holds.  The constructor never throws: every failure path inside
loadQueue is caught, so startup always completes. -/
def startup (activeFile : Option (Except Unit (List Job)))
    (deadFiles : List Job) : QState :=
  { init with queue := loadQueue activeFile init.queue
            , persisted := loadQueue activeFile init.queue }

/-- Crash and restart: the heap (queue, flags, active processes, pending
timers) is lost, the two persisted artefacts survive, and the constructor
reloads email-queue.json.  `sentLog` is a history variable and is carried
over; wall-clock time keeps running. -/
def restart (s : QState) : QState :=
  { init with queue := s.persisted
            , persisted := s.persisted
            , dead := s.dead
            , sentLog := s.sentLog
            , now := s.now }

/-- The object returned by getStatus (lines 231-240). -/
structure StatusReport where
  queueLength : Nat
  processing : Bool
  activeProcesses : Nat
  maxConcurrentEmails : Nat
  pendingEmails : Nat
  retryingEmails : Nat
deriving DecidableEq, Repr

/-- getStatus (lines 230-240): counts over `this.queue` by status. -/
def getStatus (s : QState) : StatusReport :=
  { queueLength := s.queue.length
  , processing := s.processing
  , activeProcesses := s.inflight.length
  , maxConcurrentEmails := maxConcurrentEmails
  , pendingEmails :=
      (s.queue.filter (fun j => decide (j.status = Status.pending))).length
  , retryingEmails :=
      (s.queue.filter (fun j => decide (j.status = Status.retrying))).length }

/-- One atomic stretch of event-loop execution, as catalogued at the top of
this file.  Write failures are nondeterministic (`ok`, `dok`), as are the
id generator, the payloads, the SMTP outcome and the firing order of due
timers. -/
inductive Step : QState → QState → Prop
  | stepEnqueue (s : QState) (ok : Bool) (newId : Nat) (d : EmailData) :
      Step s (enqueue ok newId d s).2
  | stepSettleSuccess (s : QState) (ok : Bool) (l r : List Job) (j : Job)
      (h : s.inflight = l ++ j :: r) :
      Step s (settleSuccess ok l r s j)
  | stepSettleFailure (s : QState) (ok dok : Bool) (e : String)
      (l r : List Job) (j : Job) (h : s.inflight = l ++ j :: r) :
      Step s (settleFailure ok dok e l r s j)
  | stepBatchDone (s : QState) (h1 : s.phase = Phase.awaitingBatch)
      (h2 : s.inflight = []) :
      Step s (batchDone s)
  | stepPauseDone (s : QState) (h : s.phase = Phase.pausing) :
      Step s (pauseDone s)
  | stepPeriodic (s : QState) : Step s (periodicTick s)
  | stepRetryFire (s : QState) (ok : Bool) (w1 w2 : List (Nat × Job))
      (due : Nat) (j : Job) (h : s.waiting = w1 ++ (due, j) :: w2)
      (ht : due ≤ s.now) :
      Step s (retryFire ok w1 w2 s j)
  | stepClearQueue (s : QState) (ok : Bool) : Step s (clearQueue ok s)
  | stepTick (s : QState) (dt : Nat) : Step s { s with now := s.now + dt }
  | stepRestart (s : QState) : Step s (restart s)

/-- States reachable by a fresh process (empty persisted file) under any
interleaving of the atomic stretches above. -/
inductive Reachable : QState → Prop
  | base : Reachable init
  | next {s t : QState} : Reachable s → Step s t → Reachable t

/-- The item written on the failure path when the Retry Policy says retry:
`emailItem` after lines 141-143 and 153. -/
def retriedRecord (e : String) (t : Nat) (j : Job) : Job :=
  { j with attempts := j.attempts + 1
         , lastError := some e
         , lastAttempt := some t
         , status := Status.retrying }

/-- The item written to the failed-emails directory when the attempt budget
is exhausted: `emailItem` after lines 141-143 and 148. -/
def failedRecord (e : String) (t : Nat) (j : Job) : Job :=
  { j with attempts := j.attempts + 1
         , lastError := some e
         , lastAttempt := some t
         , status := Status.failed }

/-- A sample notification payload used in the concrete traces below. -/
def sampleData : EmailData :=
  { type := "shareNotification"
  , «to» := "user@example.org"
  , subject := "A file was shared with you"
  , html := "hello" }

/-- A sample transport failure message. -/
def sampleError : String := "SMTP connection refused"

/-- The item created by the first enqueue of the concrete traces. -/
def job1 : Job := mkJob 1 sampleData 0

/-- Trace state: fresh process, one enqueue (persist succeeds).  The
enqueue triggers processQueue, which immediately splices the item and
dispatches it, so the item is in flight and the queue is empty again. -/
def state1 : QState := (enqueue true 1 sampleData init).2

/-- Trace state: the single in-flight attempt of `state1` fails with a
transport error; the retry decision schedules a 5-second timer and the
line-171 saveQueue succeeds. -/
def state2 : QState := settleFailure true true sampleError [] [] state1 job1

/-- Trace state: processQueue resumes from `Promise.allSettled` with an
empty queue and goes idle. -/
def state3 : QState := batchDone state2

/-- Trace state: the operator clears the queue (persist succeeds). -/
def state4 : QState := clearQueue true state3

/-- Trace state: five seconds pass, so the retry timer becomes due. -/
def state5 : QState := { state4 with now := state4.now + 5000 }

/-- The retried item as it sits in the `setTimeout` closure of `state2`
through `state5`. -/
def retriedJob1 : Job := retriedRecord sampleError 0 job1

/-- Trace state: the retry timer fires after the clear; the item is pushed
back onto the queue and processQueue dispatches it again. -/
def state6 : QState := retryFire true [] [] state5 retriedJob1

/-- Trace state: a second enqueue arriving while `state1` is mid-episode
(`processing === true`); the item is appended and persisted but not
dispatched. -/
def state7 : QState := (enqueue true 2 sampleData state1).2

/-- A dead-letter record sitting in the failed-emails directory before a
process starts. -/
def deadRecord : Job :=
  { failedRecord sampleError 0 (mkJob 9 sampleData 0) with attempts := 3 }

/-- Worker-pool invariant: the in-flight set is empty except while the
processQueue coroutine is suspended at `Promise.allSettled`, and is never
larger than `maxConcurrentEmails`. -/
def PoolInv (s : QState) : Prop :=
  (s.phase ≠ Phase.awaitingBatch → s.inflight = []) ∧
  s.inflight.length ≤ maxConcurrentEmails

/-- Status invariant: every item in the in-memory queue, and every item in
the persisted file, carries status `'pending'`. -/
def PendingInv (s : QState) : Prop :=
  (∀ j ∈ s.queue, j.status = Status.pending) ∧
  (∀ j ∈ s.persisted, j.status = Status.pending)

@[simp]
theorem saveQueue_queue (ok : Bool) (s : QState) :
    (saveQueue ok s).queue = s.queue := by
  unfold saveQueue; split <;> rfl

@[simp]
theorem saveQueue_phase (ok : Bool) (s : QState) :
    (saveQueue ok s).phase = s.phase := by
  unfold saveQueue; split <;> rfl

@[simp]
theorem saveQueue_inflight (ok : Bool) (s : QState) :
    (saveQueue ok s).inflight = s.inflight := by
  unfold saveQueue; split <;> rfl

@[simp]
theorem saveQueue_waiting (ok : Bool) (s : QState) :
    (saveQueue ok s).waiting = s.waiting := by
  unfold saveQueue; split <;> rfl

@[simp]
theorem saveQueue_dead (ok : Bool) (s : QState) :
    (saveQueue ok s).dead = s.dead := by
  unfold saveQueue; split <;> rfl

@[simp]
theorem saveQueue_sentLog (ok : Bool) (s : QState) :
    (saveQueue ok s).sentLog = s.sentLog := by
  unfold saveQueue; split <;> rfl

@[simp]
theorem saveQueue_now (ok : Bool) (s : QState) :
    (saveQueue ok s).now = s.now := by
  unfold saveQueue; split <;> rfl

theorem saveQueue_persisted (ok : Bool) (s : QState) :
    (saveQueue ok s).persisted = if ok then s.queue else s.persisted := by
  unfold saveQueue; split <;> simp_all

@[simp]
theorem saveQueue_processing (ok : Bool) (s : QState) :
    (saveQueue ok s).processing = s.processing := by
  unfold QState.processing; rw [saveQueue_phase]

theorem processing_eq_false_iff (s : QState) :
    s.processing = false ↔ s.phase = Phase.idle := by
  unfold QState.processing; simp

theorem processing_eq_true_iff (s : QState) :
    s.processing = true ↔ s.phase ≠ Phase.idle := by
  unfold QState.processing; simp

theorem dispatch_queue_subset (s : QState) : (dispatch s).queue ⊆ s.queue := by
  unfold dispatch
  split
  · exact List.drop_subset _ _
  · exact fun _ h => h

theorem processQueue_queue_subset (s : QState) :
    (processQueue s).queue ⊆ s.queue := by
  unfold processQueue
  split
  · exact fun _ h => h
  · exact dispatch_queue_subset s

theorem poolInv_dispatch {s : QState} (h : s.inflight = []) :
    PoolInv (dispatch s) := by
  unfold dispatch PoolInv
  split
  · constructor
    · intro hph; simp at hph
    · simp only [h, List.nil_append, List.length_nil, Nat.sub_zero]
      exact List.length_take_le _ _
  · exact ⟨fun _ => h, by simp [h]⟩

theorem poolInv_processQueue {s : QState} (hs : PoolInv s) :
    PoolInv (processQueue s) := by
  unfold processQueue
  split
  · exact hs
  · next hpr =>
      apply poolInv_dispatch
      apply hs.1
      have : s.phase = Phase.idle := by
        rw [← processing_eq_false_iff]
        exact Bool.not_eq_true _ ▸ (by simpa using hpr)
      rw [this]
      intro hc
      exact Phase.noConfusion hc

theorem poolInv_of_eq {s t : QState} (hp : t.phase = s.phase)
    (hi : t.inflight = s.inflight) (hs : PoolInv s) : PoolInv t := by
  unfold PoolInv at *
  rw [hp, hi]
  exact hs

theorem poolInv_settle {s : QState} (l r : List Job) (j : Job)
    (hinf : s.inflight = l ++ j :: r) {t : QState} (hp : t.phase = s.phase)
    (hi : t.inflight = l ++ r) (hs : PoolInv s) : PoolInv t := by
  constructor
  · intro hph
    exfalso
    have hnil := hs.1 (by rw [← hp]; exact hph)
    rw [hinf] at hnil
    simp at hnil
  · have h2 := hs.2
    rw [hinf] at h2
    rw [hi]
    simp only [List.length_append, List.length_cons] at h2 ⊢
    omega

theorem poolInv_step {s t : QState} (hs : PoolInv s) (h : Step s t) :
    PoolInv t := by
  cases h with
  | stepEnqueue ok newId d =>
      exact poolInv_processQueue (poolInv_of_eq (by simp) (by simp) hs)
  | stepSettleSuccess ok l r j hinf =>
      exact poolInv_settle l r j hinf (by simp [settleSuccess])
        (by simp [settleSuccess]) hs
  | stepSettleFailure ok dok e l r j hinf =>
      rcases hnd : nextDecision (j.attempts + 1) with _ | d
      · exact poolInv_settle l r j hinf
          (by simp [settleFailure, hnd]) (by simp [settleFailure, hnd]) hs
      · exact poolInv_settle l r j hinf
          (by simp [settleFailure, hnd]) (by simp [settleFailure, hnd]) hs
  | stepBatchDone h1 h2 =>
      unfold batchDone
      split
      · exact ⟨fun _ => h2, by simp [h2]⟩
      · exact poolInv_dispatch h2
  | stepPauseDone hph =>
      apply poolInv_dispatch
      apply hs.1
      rw [hph]
      intro hc
      exact Phase.noConfusion hc
  | stepPeriodic =>
      unfold periodicTick
      split
      · exact poolInv_processQueue hs
      · exact hs
  | stepRetryFire ok w1 w2 due j hwait ht =>
      exact poolInv_processQueue (poolInv_of_eq (by simp) (by simp) hs)
  | stepClearQueue ok =>
      exact poolInv_of_eq (by simp [clearQueue]) (by simp [clearQueue]) hs
  | stepTick dt =>
      exact poolInv_of_eq rfl rfl hs
  | stepRestart =>
      exact ⟨fun _ => rfl, by simp [restart, init, maxConcurrentEmails]⟩

theorem poolInv_reachable {s : QState} (h : Reachable s) : PoolInv s := by
  induction h with
  | base => exact ⟨fun _ => rfl, by simp [init, maxConcurrentEmails]⟩
  | next _ hst ih => exact poolInv_step ih hst

@[simp]
theorem dispatch_persisted (s : QState) :
    (dispatch s).persisted = s.persisted := by
  unfold dispatch; split <;> rfl

@[simp]
theorem processQueue_persisted (s : QState) :
    (processQueue s).persisted = s.persisted := by
  unfold processQueue; split <;> simp

theorem pendingInv_saveQueue {s : QState} (ok : Bool) (h : PendingInv s) :
    PendingInv (saveQueue ok s) := by
  unfold saveQueue
  split
  · exact ⟨h.1, h.1⟩
  · exact h

theorem pendingInv_dispatch {s : QState} (h : PendingInv s) :
    PendingInv (dispatch s) := by
  refine ⟨fun j hj => h.1 j (dispatch_queue_subset s hj), ?_⟩
  rw [dispatch_persisted]
  exact h.2

theorem pendingInv_processQueue {s : QState} (h : PendingInv s) :
    PendingInv (processQueue s) := by
  unfold processQueue
  split
  · exact h
  · exact pendingInv_dispatch h

theorem pendingInv_step {s t : QState} (hs : PendingInv s) (h : Step s t) :
    PendingInv t := by
  cases h with
  | stepEnqueue ok newId d =>
      simp only [enqueue]
      apply pendingInv_processQueue
      apply pendingInv_saveQueue
      refine ⟨?_, hs.2⟩
      intro j hj
      rcases List.mem_append.mp hj with h1 | h1
      · exact hs.1 j h1
      · rw [List.mem_singleton.mp h1]
        rfl
  | stepSettleSuccess ok l r j hinf =>
      exact pendingInv_saveQueue ok ⟨hs.1, hs.2⟩
  | stepSettleFailure ok dok e l r j hinf =>
      rcases hnd : nextDecision (j.attempts + 1) with _ | d <;>
        · simp only [settleFailure, hnd]
          exact pendingInv_saveQueue ok ⟨hs.1, hs.2⟩
  | stepBatchDone h1 h2 =>
      unfold batchDone
      split
      · exact hs
      · exact pendingInv_dispatch hs
  | stepPauseDone hph =>
      exact pendingInv_dispatch hs
  | stepPeriodic =>
      unfold periodicTick
      split
      · exact pendingInv_processQueue hs
      · exact hs
  | stepRetryFire ok w1 w2 due j hwait ht =>
      simp only [retryFire]
      apply pendingInv_processQueue
      apply pendingInv_saveQueue
      refine ⟨?_, hs.2⟩
      intro k hk
      rcases List.mem_append.mp hk with h1 | h1
      · exact hs.1 k h1
      · rw [List.mem_singleton.mp h1]
  | stepClearQueue ok =>
      apply pendingInv_saveQueue
      exact ⟨by intro j hj; simp at hj, hs.2⟩
  | stepTick dt =>
      exact hs
  | stepRestart =>
      exact ⟨hs.2, hs.2⟩

theorem pendingInv_reachable {s : QState} (h : Reachable s) : PendingInv s := by
  induction h with
  | base => exact ⟨by intro j hj; simp [init] at hj, by intro j hj; simp [init] at hj⟩
  | next _ hst ih => exact pendingInv_step ih hst

/-- Across any single atomic stretch, an item enters the in-memory queue
only from one of three places: it was already there, it was reloaded from
the persisted file by a restart, it is a freshly built item of the present
instant, or it came from a retry timer whose due time has already been
reached. -/
theorem step_queue_mem {s t : QState} (h : Step s t) {k : Job}
    (hk : k ∈ t.queue) :
    k ∈ s.queue ∨ k ∈ s.persisted ∨ (∃ i d, k = mkJob i d s.now) ∨
    (∃ due j0, (due, j0) ∈ s.waiting ∧ due ≤ s.now ∧
      k = { j0 with status := Status.pending }) := by
  cases h with
  | stepEnqueue ok newId d =>
      simp only [enqueue] at hk
      have hk2 := processQueue_queue_subset _ hk
      rw [saveQueue_queue] at hk2
      rcases List.mem_append.mp hk2 with h1 | h1
      · exact Or.inl h1
      · exact Or.inr (Or.inr (Or.inl ⟨newId, d, List.mem_singleton.mp h1⟩))
  | stepSettleSuccess ok l r j hinf =>
      simp only [settleSuccess, saveQueue_queue] at hk
      exact Or.inl hk
  | stepSettleFailure ok dok e l r j hinf =>
      rcases hnd : nextDecision (j.attempts + 1) with _ | d <;>
        · simp only [settleFailure, hnd, saveQueue_queue] at hk
          exact Or.inl hk
  | stepBatchDone h1 h2 =>
      unfold batchDone at hk
      split at hk
      · exact Or.inl hk
      · exact Or.inl (dispatch_queue_subset _ hk)
  | stepPauseDone hph =>
      exact Or.inl (dispatch_queue_subset _ hk)
  | stepPeriodic =>
      unfold periodicTick at hk
      split at hk
      · exact Or.inl (processQueue_queue_subset _ hk)
      · exact Or.inl hk
  | stepRetryFire ok w1 w2 due j hwait ht =>
      simp only [retryFire] at hk
      have hk2 := processQueue_queue_subset _ hk
      rw [saveQueue_queue] at hk2
      rcases List.mem_append.mp hk2 with h1 | h1
      · exact Or.inl h1
      · refine Or.inr (Or.inr (Or.inr ⟨due, j, ?_, ht, List.mem_singleton.mp h1⟩))
        rw [hwait]
        exact List.mem_append.mpr (Or.inr (List.mem_cons_self _ _))
  | stepClearQueue ok =>
      simp [clearQueue] at hk
  | stepTick dt =>
      exact Or.inl hk
  | stepRestart =>
      exact Or.inr (Or.inl hk)

theorem settleFailure_retry_fields (s : QState) (ok dok : Bool) (e : String)
    (l r : List Job) (j : Job) (hlt : j.attempts + 1 < retryAttempts) :
    (settleFailure ok dok e l r s j).waiting
        = s.waiting ++
          [(s.now + min (retryDelay * 2 ^ j.attempts) maxRetryDelay,
            retriedRecord e s.now j)] ∧
    (settleFailure ok dok e l r s j).queue = s.queue ∧
    (settleFailure ok dok e l r s j).persisted
        = (if ok then s.queue else s.persisted) ∧
    (settleFailure ok dok e l r s j).inflight = l ++ r ∧
    (settleFailure ok dok e l r s j).now = s.now ∧
    (settleFailure ok dok e l r s j).dead = s.dead := by
  have hnd : nextDecision (j.attempts + 1)
      = RetryDecision.retry (min (retryDelay * 2 ^ j.attempts) maxRetryDelay) := by
    unfold nextDecision
    rw [if_neg (Nat.not_le.mpr hlt)]
    simp
  simp [settleFailure, hnd, saveQueue_persisted, retriedRecord]

theorem settleFailure_quarantine_fields (s : QState) (ok dok : Bool)
    (e : String) (l r : List Job) (j : Job)
    (hge : retryAttempts ≤ j.attempts + 1) :
    (settleFailure ok dok e l r s j).dead
        = (if dok then s.dead ++ [failedRecord e s.now j] else s.dead) ∧
    (settleFailure ok dok e l r s j).waiting = s.waiting ∧
    (settleFailure ok dok e l r s j).queue = s.queue ∧
    (settleFailure ok dok e l r s j).inflight = l ++ r := by
  have hnd : nextDecision (j.attempts + 1) = RetryDecision.quarantine := by
    unfold nextDecision
    rw [if_pos hge]
  simp [settleFailure, hnd, failedRecord]

theorem backoff_ge_base (a : Nat) :
    retryDelay ≤ min (retryDelay * 2 ^ a) maxRetryDelay := by
  refine le_min ?_ (by unfold retryDelay maxRetryDelay; omega)
  have h1 : 0 < 2 ^ a := Nat.pos_pow_of_pos a (by omega)
  calc retryDelay = retryDelay * 1 := by omega
    _ ≤ retryDelay * 2 ^ a := Nat.mul_le_mul_left _ h1

theorem mem_processQueue_total {u : QState} {k : Job} (hk : k ∈ u.queue) :
    k ∈ (processQueue u).queue ++ (processQueue u).inflight := by
  unfold processQueue dispatch
  split
  · exact List.mem_append.mpr (Or.inl hk)
  · split
    · have hsplit : k ∈ u.queue.take (maxConcurrentEmails - u.inflight.length)
          ++ u.queue.drop (maxConcurrentEmails - u.inflight.length) := by
        rw [List.take_append_drop]
        exact hk
      rcases List.mem_append.mp hsplit with h1 | h1
      · exact List.mem_append.mpr (Or.inr (List.mem_append.mpr (Or.inr h1)))
      · exact List.mem_append.mpr (Or.inl h1)
    · exact List.mem_append.mpr (Or.inl hk)

/-- Claim C1, counterexample: run `enqueue` on a fresh process with a
Durable Store that cannot persist (`persistOk = false`).  The call does
not fail: it returns the new item's id 7, while the persisted file still
holds nothing and the unpersisted item is already being attempted.  The
exception thrown by `fs.writeFileSync` is caught and merely logged inside
saveQueue (lines 43-45), so a persistence failure is silently swallowed
with the id still returned, contradicting the claimed equivalence. -/
theorem C1_counterexample :
    (enqueue false 7 sampleData init).1 = 7 ∧
    (enqueue false 7 sampleData init).2.persisted = [] ∧
    (enqueue false 7 sampleData init).2.inflight = [mkJob 7 sampleData 0] :=
  ⟨rfl, rfl, rfl⟩

/-- Claim C1, amended: `enqueue` never fails.  Whether or not the Durable
Store can persist the new item, the call returns the new item's id, and
the item is held in memory (in the queue or already dispatched into the
in-flight set); a persistence failure is caught inside saveQueue, logged,
and never surfaced to the caller. -/
theorem C1_enqueue_total (ok : Bool) (newId : Nat) (d : EmailData)
    (s : QState) :
    (enqueue ok newId d s).1 = newId ∧
    mkJob newId d s.now ∈
      (enqueue ok newId d s).2.queue ++ (enqueue ok newId d s).2.inflight := by
  constructor
  · rfl
  · simp only [enqueue]
    apply mem_processQueue_total
    rw [saveQueue_queue]
    exact List.mem_append.mpr (Or.inr (List.mem_singleton.mpr rfl))

/-- Claim C4: the retry decision extracted from lines 145-154 is a pure
function of the attempt count (which is at least 1 when consulted, the
increment at line 141 having just run): at or beyond 3 attempts the item
is quarantined, below that it is retried after
`min(5000ms * 2^(attempts-1), 300000ms)`; the delay after attempt 1 is
5 s, after attempt 2 is 10 s, and every delay is capped at 300 s. -/
theorem C4_retryPolicy (a : Nat) (h1 : 1 ≤ a) :
    (retryAttempts ≤ a → nextDecision a = RetryDecision.quarantine) ∧
    (a < retryAttempts →
      nextDecision a
        = RetryDecision.retry (min (retryDelay * 2 ^ (a - 1)) maxRetryDelay)) ∧
    nextDecision 1 = RetryDecision.retry 5000 ∧
    nextDecision 2 = RetryDecision.retry 10000 ∧
    (∀ d, nextDecision a = RetryDecision.retry d → d ≤ maxRetryDelay) := by
  refine ⟨?_, ?_, by decide, by decide, ?_⟩
  · intro h
    unfold nextDecision
    rw [if_pos h]
  · intro h
    unfold nextDecision
    rw [if_neg (Nat.not_le.mpr h)]
  · intro d hd
    unfold nextDecision at hd
    split at hd
    · exact absurd hd (by simp)
    · rw [← RetryDecision.retry.inj hd]
      exact min_le_right _ _

/-- Claim C4, witness: at 3 attempts the policy quarantines. -/
theorem C4_witness :
    1 ≤ 3 ∧ nextDecision 3 = RetryDecision.quarantine :=
  ⟨by decide, (C4_retryPolicy 3 (by decide)).1 (by decide)⟩

/-- Claim C6: in every reachable state, at most
`maxConcurrentEmails = 3` items are in flight simultaneously.  The
processQueue loop splices at most `maxConcurrentEmails -
activeProcesses.size` items per batch, dispatches only when the previous
batch has fully settled, and is the sole dispatcher. -/
theorem C6_concurrencyBound {s : QState} (h : Reachable s) :
    s.inflight.length ≤ maxConcurrentEmails :=
  (poolInv_reachable h).2

/-- Claim C6, witness: the bound evaluated in the reachable state right
after the first enqueue dispatched its item. -/
theorem C6_witness : state1.inflight.length ≤ maxConcurrentEmails :=
  C6_concurrencyBound
    (Reachable.next Reachable.base (Step.stepEnqueue init true 1 sampleData))

/-- Claim C8, counterexample: start a process whose email-queue.json is
absent while the failed-emails directory holds one dead-letter record.
After startup the process's dead-letter state is empty, not the persisted
record: loadQueue (lines 26-37) opens only `this.queueFile` and nothing
ever reads the failed-emails directory back, so startup does not read the
persisted dead-letter set as claimed. -/
theorem C8_counterexample :
    (startup none [deadRecord]).dead = [] ∧
    (startup none [deadRecord]).dead ≠ [deadRecord] := by
  refine ⟨rfl, ?_⟩
  intro h
  exact absurd h (by simp [startup, init])

/-- Claim C8, amended: at startup, load reads only the persisted active
set; a missing file leaves the queue empty, an unparseable file sets the
queue to empty, a parseable file is loaded verbatim, and in every case
startup completes (the constructor catches all load failures).  The
persisted dead-letter records are never read back: whatever the
failed-emails directory holds, the started process's dead set is empty. -/
theorem C8_load (activeFile : Option (Except Unit (List Job)))
    (deadFiles : List Job) :
    (startup (some (Except.error ())) deadFiles).queue = [] ∧
    (startup none deadFiles).queue = [] ∧
    (∀ l, (startup (some (Except.ok l)) deadFiles).queue = l) ∧
    (startup activeFile deadFiles).dead = [] :=
  ⟨rfl, rfl, fun _ => rfl, rfl⟩

/-- Claim C10: in every reachable state, every item in the in-memory queue
(and hence in the persisted file) has status `'pending'`: enqueue pushes
items as `'pending'`, the retry callback resets status to `'pending'`
before pushing back, and an item is spliced out of the queue before it is
ever marked `'retrying'` — so the `retryingEmails` count of getStatus is
always 0. -/
theorem C10_queue_all_pending {s : QState} (h : Reachable s) :
    (∀ j ∈ s.queue, j.status = Status.pending) ∧
    (getStatus s).retryingEmails = 0 := by
  have hp := (pendingInv_reachable h).1
  refine ⟨hp, ?_⟩
  simp only [getStatus]
  rw [List.length_eq_zero, List.filter_eq_nil_iff]
  intro a ha
  simp [hp a ha]

/-- Claim C10, witness: evaluated in the reachable state holding one
pending item enqueued while a processing episode was already running. -/
theorem C10_witness : (getStatus state7).retryingEmails = 0 :=
  (C10_queue_all_pending
    (Reachable.next
      (Reachable.next Reachable.base (Step.stepEnqueue init true 1 sampleData))
      (Step.stepEnqueue state1 true 2 sampleData))).2

/-- Claim C7: exactly one processing episode runs at a time.  processQueue
returns immediately when `this.processing` is already true (lines 88-90),
the 30-second interval only fires processQueue when not processing (line
80), and both the enqueue trigger (line 64) and the retry-timer trigger
(line 165) reduce, while an episode runs, to a pure append-and-persist
with no dispatch — so no re-entrant trigger can start a second episode or
dispatch an item a second time. -/
theorem C7_single_episode (s : QState) (h : s.processing = true) :
    processQueue s = s ∧
    periodicTick s = s ∧
    (∀ ok newId d, (enqueue ok newId d s).2
        = saveQueue ok { s with queue := s.queue ++ [mkJob newId d s.now] }) ∧
    (∀ ok w1 w2 j, retryFire ok w1 w2 s j
        = saveQueue ok
            { s with waiting := w1 ++ w2
                   , queue := s.queue ++
                       [{ j with status := Status.pending }] }) := by
  have hpq : ∀ u : QState, u.processing = true → processQueue u = u := by
    intro u hu
    unfold processQueue
    rw [if_pos hu]
  have hneg : ¬ (s.processing = false ∧ 0 < s.queue.length) := by
    intro hc
    rw [h] at hc
    exact absurd hc.1 (by simp)
  refine ⟨hpq s h, ?_, ?_, ?_⟩
  · unfold periodicTick
    rw [if_neg hneg]
  · intro ok newId d
    simp only [enqueue]
    exact hpq _ (by rw [saveQueue_processing]; exact h)
  · intro ok w1 w2 j
    simp only [retryFire]
    exact hpq _ (by rw [saveQueue_processing]; exact h)

/-- Claim C7, witness: in the mid-episode state after the first enqueue,
a re-entrant processQueue call and a periodic-timer firing are no-ops. -/
theorem C7_witness :
    state1.processing = true ∧ processQueue state1 = state1 ∧
    periodicTick state1 = state1 :=
  ⟨by decide, (C7_single_episode state1 (by decide)).1,
    (C7_single_episode state1 (by decide)).2.1⟩

/-- Claim C2, counterexample: reachable trace enqueue → dispatch → failed
attempt with retry decided.  In `state2` the item (id 1) is neither sent
(`sentLog = []`) nor dead (`dead = []`): it survives only inside the retry
timer.  Yet the active set persisted by the line-171 saveQueue is empty —
the item was spliced out of `this.queue` at dispatch — so the restart
state, also reachable, reloads nothing: the successfully enqueued,
non-terminal job is lost instead of re-admitted. -/
theorem C2_counterexample :
    Reachable (restart state2) ∧
    state2.waiting.map (fun p => (Prod.snd p).id) = [1] ∧
    state2.dead = [] ∧
    state2.sentLog = [] ∧
    state2.persisted = [] ∧
    (restart state2).queue = [] ∧
    (restart state2).waiting = [] ∧
    (restart state2).inflight = [] := by
  refine ⟨?_, rfl, rfl, rfl, rfl, rfl, rfl, rfl⟩
  have h1 : Reachable state1 :=
    Reachable.next Reachable.base (Step.stepEnqueue init true 1 sampleData)
  have h2 : Reachable state2 :=
    Reachable.next h1
      (Step.stepSettleFailure state1 true true sampleError [] [] job1 rfl)
  exact Reachable.next h2 (Step.stepRestart state2)

/-- Claim C2, amended: an item that is pending in the in-memory queue is
covered by every successful persist and survives a restart; but from the
moment a failed attempt schedules its retry, the item exists only in an
in-memory timer: the active set persisted at that moment is exactly the
current queue, which no longer contains it (it was spliced out when
dispatched), so a restart during the retry window re-admits every still
pending item yet nothing for the retried one — no attempt-count-consistent
equivalent is reloaded. -/
theorem C2_retryWindow_lost (s : QState) (dok : Bool) (e : String)
    (l r : List Job) (j : Job)
    (hlt : j.attempts + 1 < retryAttempts)
    (hqid : ∀ k ∈ s.queue, k.id ≠ j.id) :
    (∃ p ∈ (settleFailure true dok e l r s j).waiting,
        (Prod.snd p).id = j.id ∧ (Prod.snd p).attempts = j.attempts + 1) ∧
    (restart (settleFailure true dok e l r s j)).queue = s.queue ∧
    (∀ k ∈ (restart (settleFailure true dok e l r s j)).queue, k.id ≠ j.id) ∧
    (restart (settleFailure true dok e l r s j)).waiting = [] ∧
    (restart (settleFailure true dok e l r s j)).inflight = [] := by
  obtain ⟨hw, hq, hp, hi, hn, hd⟩ :=
    settleFailure_retry_fields s true dok e l r j hlt
  have hper : (restart (settleFailure true dok e l r s j)).queue = s.queue := by
    show (settleFailure true dok e l r s j).persisted = s.queue
    rw [hp]
    simp
  refine ⟨?_, hper, ?_, rfl, rfl⟩
  · refine ⟨(s.now + min (retryDelay * 2 ^ j.attempts) maxRetryDelay,
      retriedRecord e s.now j), ?_, rfl, rfl⟩
    rw [hw]
    exact List.mem_append.mpr (Or.inr (List.mem_singleton.mpr rfl))
  · intro k hk
    rw [hper] at hk
    exact hqid k hk

/-- Claim C2, amended witness: the concrete failed-attempt state of the
trace; its restart reloads exactly the (empty) pre-failure queue. -/
theorem C2_witness :
    job1.attempts + 1 < retryAttempts ∧
    (restart (settleFailure true true sampleError [] [] state1 job1)).queue
      = state1.queue :=
  ⟨by decide,
    (C2_retryWindow_lost state1 true sampleError [] [] job1 (by decide)
      (by decide)).2.1⟩

/-- Claim C3, counterexample: a completed successful attempt does not
increment `attempts`: the success branch (lines 133-137) never touches
the counter (`attempts++` runs only in the catch block, line 141), so in
this reachable trace the item's recorded count after one completed
attempt is 0, not 1 as the claim requires for successes as well. -/
theorem C3_counterexample :
    Reachable (settleSuccess true [] [] state1 job1) ∧
    (settleSuccess true [] [] state1 job1).sentLog.map Job.attempts = [0] ∧
    (settleSuccess true [] [] state1 job1).sentLog.map Job.attempts ≠ [1] := by
  refine ⟨?_, rfl, by decide⟩
  exact Reachable.next
    (Reachable.next Reachable.base (Step.stepEnqueue init true 1 sampleData))
    (Step.stepSettleSuccess state1 true [] [] job1 rfl)

/-- Claim C3, amended: `attempts` increases by exactly 1 per completed
failed attempt — the record kept afterwards (retry timer entry or
dead-letter record) carries `j.attempts + 1` — and is unchanged by a
successful attempt (the success branch records the item with its counter
untouched); the counter is never decremented, so after N failed attempts
it equals N. -/
theorem C3_attempt_increment (s : QState) (ok dok : Bool) (e : String)
    (l r : List Job) (j : Job) :
    (settleSuccess ok l r s j).sentLog = s.sentLog ++ [j] ∧
    (j.attempts + 1 < retryAttempts →
      (settleFailure ok dok e l r s j).waiting
        = s.waiting ++
          [(s.now + min (retryDelay * 2 ^ j.attempts) maxRetryDelay,
            retriedRecord e s.now j)] ∧
      (retriedRecord e s.now j).attempts = j.attempts + 1) ∧
    (retryAttempts ≤ j.attempts + 1 →
      (settleFailure ok dok e l r s j).dead
        = (if dok then s.dead ++ [failedRecord e s.now j] else s.dead) ∧
      (failedRecord e s.now j).attempts = j.attempts + 1) := by
  refine ⟨by simp [settleSuccess], ?_, ?_⟩
  · intro hlt
    exact ⟨(settleFailure_retry_fields s ok dok e l r j hlt).1, rfl⟩
  · intro hge
    exact ⟨(settleFailure_quarantine_fields s ok dok e l r j hge).1, rfl⟩

/-- Claim C3, amended witness: the first failure of the concrete trace
item records an attempt count of exactly 1. -/
theorem C3_witness :
    job1.attempts + 1 < retryAttempts ∧
    (settleFailure true true sampleError [] [] state1 job1).waiting
      = state1.waiting ++
        [(state1.now + min (retryDelay * 2 ^ job1.attempts) maxRetryDelay,
          retriedRecord sampleError state1.now job1)] :=
  ⟨by decide,
    ((C3_attempt_increment state1 true true sampleError [] [] job1).2.1
      (by decide)).1⟩

/-- Claim C5, counterexample: in the reachable state right after the first
failed attempt (retry decided, line-171 persist succeeded), the item is
marked `'retrying'` but lives only inside the pending timer: the persisted
active-set representation is empty, so the retry-scheduled job was not
persisted to the durable active set as claimed. -/
theorem C5_counterexample :
    Reachable state2 ∧
    state2.waiting.map (fun p => (Prod.snd p).status) = [Status.retrying] ∧
    state2.persisted = [] ∧
    state2.queue = [] := by
  refine ⟨?_, rfl, rfl, rfl⟩
  exact Reachable.next
    (Reachable.next Reachable.base (Step.stepEnqueue init true 1 sampleData))
    (Step.stepSettleFailure state1 true true sampleError [] [] job1 rfl)

/-- Claim C5, amended: when the Retry Policy decides retry, the item's
status is set to `'retrying'` and a persist does occur (line 171), but the
persisted active set at that point is exactly the current queue, which
does not contain the item.  The item returns to `'pending'` and re-enters
the queue only through its timer: no step taken at the same instant can
put any item with its id and a positive attempt count into the queue,
because timer re-admission requires the due time `now + delay` to have
been reached and `delay ≥ 5000 ms > 0` — i.e. not before the computed
delay has elapsed. -/
theorem C5_retrySchedule (s : QState) (dok : Bool) (e : String)
    (l r : List Job) (j : Job)
    (hlt : j.attempts + 1 < retryAttempts)
    (hqid : ∀ k ∈ s.queue, k.id ≠ j.id)
    (hwid : ∀ p ∈ s.waiting, (Prod.snd p).id ≠ j.id) :
    (settleFailure true dok e l r s j).waiting
      = s.waiting ++
        [(s.now + min (retryDelay * 2 ^ j.attempts) maxRetryDelay,
          retriedRecord e s.now j)] ∧
    (retriedRecord e s.now j).status = Status.retrying ∧
    (settleFailure true dok e l r s j).persisted = s.queue ∧
    (∀ k ∈ (settleFailure true dok e l r s j).persisted, k.id ≠ j.id) ∧
    (∀ u, Step (settleFailure true dok e l r s j) u →
      ∀ k ∈ u.queue, k.id = j.id → k.attempts = 0) := by
  obtain ⟨hw, hq, hp, hi, hn, hd⟩ :=
    settleFailure_retry_fields s true dok e l r j hlt
  have hper : (settleFailure true dok e l r s j).persisted = s.queue := by
    rw [hp]
    simp
  refine ⟨hw, rfl, hper, ?_, ?_⟩
  · intro k hk
    rw [hper] at hk
    exact hqid k hk
  · intro u hstep k hk hkid
    rcases step_queue_mem hstep hk with
      h1 | h1 | ⟨i, d0, h1⟩ | ⟨due, j0, hmem, hdue, hkeq⟩
    · rw [hq] at h1
      exact absurd hkid (hqid k h1)
    · rw [hper] at h1
      exact absurd hkid (hqid k h1)
    · rw [h1]
      rfl
    · rw [hw] at hmem
      rcases List.mem_append.mp hmem with hm | hm
      · rw [hkeq] at hkid
        exact absurd hkid (hwid _ hm)
      · have heq := List.mem_singleton.mp hm
        have hdue2 : due
            = s.now + min (retryDelay * 2 ^ j.attempts) maxRetryDelay :=
          congrArg Prod.fst heq
        rw [hn] at hdue
        rw [hdue2] at hdue
        have hbase := backoff_ge_base j.attempts
        revert hdue hbase
        generalize min (retryDelay * 2 ^ j.attempts) maxRetryDelay = m
        intro hdue hbase
        unfold retryDelay at hbase
        omega

/-- Claim C5, amended witness: the concrete failed-attempt state; persist
succeeded yet the persisted active set equals the (empty) queue. -/
theorem C5_witness :
    job1.attempts + 1 < retryAttempts ∧
    (settleFailure true true sampleError [] [] state1 job1).persisted
      = state1.queue :=
  ⟨by decide,
    (C5_retrySchedule state1 true sampleError [] [] job1 (by decide)
      (by decide) (by decide)).2.2.1⟩

/-- Claim C9, counterexample: reachable trace — enqueue, failed attempt
(retry timer armed), episode ends, operator runs clearQueue, five seconds
pass, the uncancelled timer fires.  The previously enqueued, undelivered
item (id 1) is re-admitted to the queue and immediately dispatched again:
after the clear it sits in the in-flight set with attempt count 1.
clearQueue (lines 243-246) only empties `this.queue`; it neither cancels
the pending `setTimeout` retries nor touches in-flight attempts. -/
theorem C9_counterexample :
    Reachable state6 ∧
    state4.queue = [] ∧
    state4.persisted = [] ∧
    state6.inflight.map Job.id = [1] ∧
    state6.inflight.map Job.attempts = [1] := by
  refine ⟨?_, rfl, rfl, rfl, rfl⟩
  have h1 : Reachable state1 :=
    Reachable.next Reachable.base (Step.stepEnqueue init true 1 sampleData)
  have h2 : Reachable state2 :=
    Reachable.next h1
      (Step.stepSettleFailure state1 true true sampleError [] [] job1 rfl)
  have h3 : Reachable state3 :=
    Reachable.next h2 (Step.stepBatchDone state2 rfl rfl)
  have h4 : Reachable state4 :=
    Reachable.next h3 (Step.stepClearQueue state3 true)
  have h5 : Reachable state5 :=
    Reachable.next h4 (Step.stepTick state4 5000)
  exact Reachable.next h5
    (Step.stepRetryFire state5 true [] [] 5000 retriedJob1 rfl (by decide))

/-- Claim C9, amended: clearQueue drops exactly the items currently in the
in-memory queue (all pending) and persists the empty queue; it does not
touch the in-flight attempts, the pending retry timers, the dead-letter
records or the processing phase — in particular a retry-scheduled job
survives the clear inside its timer and is re-admitted to the queue (and
re-attempted) when the timer fires. -/
theorem C9_clearQueue_scope (ok : Bool) (s : QState) :
    (clearQueue ok s).queue = [] ∧
    (clearQueue true s).persisted = [] ∧
    (clearQueue ok s).waiting = s.waiting ∧
    (clearQueue ok s).inflight = s.inflight ∧
    (clearQueue ok s).dead = s.dead ∧
    (clearQueue ok s).phase = s.phase := by
  refine ⟨by simp [clearQueue], ?_, by simp [clearQueue],
    by simp [clearQueue], by simp [clearQueue], by simp [clearQueue]⟩
  unfold clearQueue
  rw [saveQueue_persisted]
  simp

end EmailQueue
